import Mathlib

/-!
Verification development for `reporter.py` of Allist/MetricCurator.

The script is a linear pipeline over three HTTP boundaries:
1. `get_all_queries_from_grafana` — fetches a Grafana dashboard definition and
   flattens it into (panel title, query) pairs;
2. `get_metrics` — runs each query against Prometheus and renders a text report;
3. `generate_report_with_gemini` — turns the report into a narrative;
4. `send_to_discord` — chunks the narrative and posts it to a webhook.

The embedding below models the Python functions as total Lean functions.
JSON values are an inductive type; Python's dynamic-typing failures
(AttributeError, TypeError, ...) are modelled with `Except PyError`;
each external HTTP interaction is passed in as an explicit parameter
(the response for the Grafana call, a query → outcome function for the
Prometheus client, an outcome for the Gemini call), so that the functions
stay pure while the observable behaviour — returned value, raised
exception, whether a request was issued, which POST bodies were sent —
is preserved.
-/

set_option maxHeartbeats 1000000
set_option autoImplicit false

namespace MetricCurator

/-- Python runtime exceptions that the extraction / collection code can hit
and that are relevant to its `try`/`except` structure.  `requests`' network
failures and JSON parse failures are modelled separately (they are caught
by the source, see `get_all_queries_from_grafana`). -/
inductive PyError where
  | attributeError
  | typeError
  | keyError
  | indexError
  | valueError
deriving DecidableEq, Repr

/-- JSON values, as produced by `response.json()`.  Objects keep their key
order (Python dicts preserve insertion order).  Numbers are modelled as
integers: the dashboard fields the program reads (`hide`, `expr`,
`datasource`, `title`, Prometheus `value` pairs) are booleans, strings,
integers or nested containers in every case a claim touches. -/
inductive Json where
  | null : Json
  | bool : Bool → Json
  | num : Int → Json
  | str : String → Json
  | arr : List Json → Json
  | obj : List (String × Json) → Json

/-- Python truthiness of a JSON-derived value (`None`, `False`, `0`, `""`,
`[]`, `{}` are falsy). -/
def truthy : Json → Bool
  | .null => false
  | .bool b => b
  | .num n => n != 0
  | .str s => s != ""
  | .arr xs => !xs.isEmpty
  | .obj kvs => !kvs.isEmpty

/-- Python truthiness of `os.environ.get(...)`: `None` (unset) and the empty
string are falsy. -/
def optTruthy : Option String → Bool
  | none => false
  | some s => s != ""

/-- Python `for x in v`: lists yield their elements, strings their
characters, dicts their keys; other values raise `TypeError`. -/
def pyIter : Json → Except PyError (List Json)
  | .arr xs => .ok xs
  | .str s => .ok (s.data.map fun c => .str ⟨[c]⟩)
  | .obj kvs => .ok (kvs.map fun kv => .str kv.1)
  | _ => .error .typeError

/-- Python `repr()` on JSON-derived values (used by `str()` on containers).
String escaping corner cases are not modelled; no claim depends on them. -/
def pyRepr : Json → String
  | .null => "None"
  | .bool true => "True"
  | .bool false => "False"
  | .num n => toString n
  | .str s => "\x27" ++ s ++ "\x27"
  | .arr xs => "[" ++ String.intercalate ", " (xs.attach.map fun x => pyRepr x.1) ++ "]"
  | .obj kvs =>
    "\x7b" ++
      String.intercalate ", "
        (kvs.attach.map fun kv => "\x27" ++ kv.1.1 ++ "\x27: " ++ pyRepr kv.1.2) ++
      "\x7d"
decreasing_by
  · have := List.sizeOf_lt_of_mem x.2
    simp at this ⊢
    omega
  · obtain ⟨⟨a, b⟩, hmem⟩ := kv
    have := List.sizeOf_lt_of_mem hmem
    simp at this ⊢
    omega

/-- Python `str()` of a JSON-derived value, as interpolated by f-strings. -/
def pyStr : Json → String
  | .str s => s
  | j => pyRepr j

/-- `str()` of an `os.environ.get` result (`None` prints as `"None"`). -/
def pyStrOpt : Option String → String
  | none => "None"
  | some s => s

/-- Boolean "is `pat` a prefix of `l`". -/
def pfxB : List Char → List Char → Bool
  | [], _ => true
  | _ :: _, [] => false
  | a :: as, b :: bs => a == b && pfxB as bs

/-- Python `str.replace(pat, rep)` on character lists: leftmost-first,
non-overlapping, replace all.  (Python's behaviour for an empty `pat` is
not modelled; both patterns used by the source are non-empty.)  The
recursion is measured by an explicit fuel so that the definition is
structurally recursive; `replaceAux` always supplies the list length,
which suffices because every step consumes at least one character. -/
def replaceAuxF (pat rep : List Char) : Nat → List Char → List Char
  | _, [] => []
  | 0, l => l
  | fuel + 1, c :: rest =>
    if pfxB pat (c :: rest) && !pat.isEmpty then
      rep ++ replaceAuxF pat rep fuel (rest.drop (pat.length - 1))
    else
      c :: replaceAuxF pat rep fuel rest

/-- Python `str.replace(pat, rep)` on character lists. -/
def replaceAux (pat rep l : List Char) : List Char := replaceAuxF pat rep l.length l

/-- Python `str.replace` lifted to `String`. -/
def pyReplace (s pat rep : String) : String := ⟨replaceAux pat.data rep.data s.data⟩

/-- Line 89 of the source:
`query.replace('$__range', '24h').replace('$__interval', '5m')`. -/
def substTokens (q : String) : String :=
  pyReplace (pyReplace q "$__range" "24h") "$__interval" "5m"

/-- The characters of the `$__range` templating token. -/
def rngTok : List Char := "$__range".data

/-- The characters of the `$__interval` templating token. -/
def ivlTok : List Char := "$__interval".data

/-- One element of `queries_with_titles`: the dict
`{'title': panel_title, 'query': query}`.  `panel_title` is whatever JSON
value `panel.get('title', ...)` produced; `query` is always a string (a
non-string truthy `expr` makes `query.replace` raise before any append). -/
structure QueryItem where
  title : Json
  query : String

/-- Lines 86–91: the body of the target loop.  Returns `none` when the
target is skipped (hidden, no `expr`, falsy `expr`), `some item` when a
query is appended, and an error when Python would raise
(`target.get` on a non-dict, `.replace` on a non-string truthy `expr`). -/
def processTarget (panel_title : Json) (target : Json) : Except PyError (Option QueryItem) :=
  match target with
  | .obj kvs =>
    if truthy ((kvs.lookup "hide").getD .null) then .ok none
    else
      match kvs.lookup "expr" with
      | none => .ok none
      | some e =>
        if truthy e then
          match e with
          | .str q => .ok (some ⟨panel_title, substTokens q⟩)
          | _ => .error .attributeError
        else .ok none
  | _ => .error .attributeError

/-- The target loop of lines 85–92, preserving encounter order. -/
def processTargets (panel_title : Json) : List Json → Except PyError (List QueryItem)
  | [] => .ok []
  | t :: ts =>
    match processTarget panel_title t with
    | .error e => .error e
    | .ok none => processTargets panel_title ts
    | .ok (some item) =>
      match processTargets panel_title ts with
      | .error e => .error e
      | .ok rest => .ok (item :: rest)

/-- Line 82:
`(isinstance(datasource_info, dict) and datasource_info.get('type') == 'prometheus') or datasource_info is None`. -/
def isPromDatasource (ds : Json) : Bool :=
  (match ds with
   | .obj dkvs =>
     (match dkvs.lookup "type" with
      | some (.str t) => t == "prometheus"
      | _ => false)
   | _ => false) ||
  (match ds with | .null => true | _ => false)

/-- Lines 79–92: the body of the panel loop.  A non-dict panel raises
(`panel.get` on a non-dict). -/
def processPanel (panel : Json) : Except PyError (List QueryItem) :=
  match panel with
  | .obj kvs =>
    let panel_title := (kvs.lookup "title").getD (.str "제목 없는 패널")
    let datasource_info := (kvs.lookup "datasource").getD (.obj [])
    if (kvs.lookup "targets").isSome && isPromDatasource datasource_info then
      match pyIter ((kvs.lookup "targets").getD .null) with
      | .error e => .error e
      | .ok ts => processTargets panel_title ts
    else .ok []
  | _ => .error .attributeError

/-- The panel loop, in order; the single shared accumulator of the source
is equivalent to per-panel concatenation. -/
def processPanels : List Json → Except PyError (List QueryItem)
  | [] => .ok []
  | p :: ps =>
    match processPanel p with
    | .error e => .error e
    | .ok items =>
      match processPanels ps with
      | .error e => .error e
      | .ok rest => .ok (items ++ rest)

/-- Lines 74–94: walk the parsed body.
`dashboard_data.get('dashboard', {}).get('panels', [])`, then the panel
loop.  Errors are Python exceptions NOT caught by the function's
`except` clauses (only `requests.exceptions.RequestException` and
`ValueError` are caught), so they propagate to the caller. -/
def extractFromBody (j : Json) : Except PyError (List QueryItem) :=
  match j with
  | .obj kvs =>
    (match (kvs.lookup "dashboard").getD (.obj []) with
     | .obj dkvs =>
       (match pyIter ((dkvs.lookup "panels").getD (.arr [])) with
        | .error e => .error e
        | .ok panels => processPanels panels)
     | _ => .error .attributeError)
  | _ => .error .attributeError

/-- The Grafana-related configuration globals read by
`get_all_queries_from_grafana` (each is `os.environ.get(...)`, so possibly
unset). -/
structure GrafanaConfig where
  grafana_url : Option String
  grafana_api_key : Option String
  grafana_public_domain : Option String

/-- The observable outcome of the single `requests.get` call:
a network-level failure (`requests.exceptions.RequestException`), or a
response with a status code and a body that either parses as JSON or does
not (`response.json()` raising `ValueError`). -/
inductive HttpOutcome where
  | networkError : HttpOutcome
  | response (status : Nat) (body : Option Json) : HttpOutcome

/-- What a call of `get_all_queries_from_grafana` did: the returned list
(or the propagated Python exception), and whether the HTTP request was
issued at all. -/
structure ExtractionRun where
  result : Except PyError (List QueryItem)
  httpRequested : Bool

/-- Line 51: `all([GRAFANA_URL, GRAFANA_API_KEY, GRAFANA_PUBLIC_DOMAIN, dashboard_uid])`. -/
def grafanaConfigTruthy (cfg : GrafanaConfig) (dashboard_uid : Option String) : Bool :=
  optTruthy cfg.grafana_url && optTruthy cfg.grafana_api_key &&
  optTruthy cfg.grafana_public_domain && optTruthy dashboard_uid

/-- Lines 49–101: `get_all_queries_from_grafana(dashboard_uid)`.
Missing configuration short-circuits before the request; a network error,
a non-200 status and an unparsable body each return `[]` (the
corresponding exceptions are caught); a parsed body is walked by
`extractFromBody`, whose errors propagate. -/
def get_all_queries_from_grafana (cfg : GrafanaConfig) (dashboard_uid : Option String)
    (http : HttpOutcome) : ExtractionRun :=
  if !grafanaConfigTruthy cfg dashboard_uid then ⟨.ok [], false⟩
  else
    match http with
    | .networkError => ⟨.ok [], true⟩
    | .response status body =>
      if status != 200 then ⟨.ok [], true⟩
      else
        match body with
        | none => ⟨.ok [], true⟩
        | some j => ⟨extractFromBody j, true⟩

/-! ## Metric Collector (`get_metrics`, lines 104–146)

Numeric values are modelled as exact decimal fractions (an idealised
reading of Python `float`); no claim depends on binary floating-point
rounding artifacts.  The Prometheus client call
`prom.custom_query(query=query)` is an explicit parameter mapping a query
string to its outcome. -/

/-- Idealised exact value of a Python float: the fraction `num / den`,
with `den` a positive power of ten as produced by decimal parsing. -/
structure DecFloat where
  num : Int
  den : Nat

/-- Python `int(digit string)` accumulation. -/
def digitsToNat (ds : List Char) : Nat :=
  ds.foldl (fun a c => a * 10 + (c.toNat - 48)) 0

/-- Whitespace stripped by Python `float(str)`. -/
def isPySpace (c : Char) : Bool :=
  c == ' ' || c == '\t' || c == '\n' || c == '\r'

/-- Strip surrounding whitespace. -/
def trimChars (l : List Char) : List Char :=
  ((l.dropWhile isPySpace).reverse.dropWhile isPySpace).reverse

/-- Parse an unsigned decimal `digits [. digits]` prefix; returns the value
and the remaining characters.  At least one digit must be present on one
side of the dot. -/
def parseUnsigned (l : List Char) : Option (DecFloat × List Char) :=
  let ip := l.takeWhile Char.isDigit
  let r1 := l.dropWhile Char.isDigit
  match r1 with
  | '.' :: r2 =>
    let fp := r2.takeWhile Char.isDigit
    let r3 := r2.dropWhile Char.isDigit
    if ip.isEmpty && fp.isEmpty then none
    else some (⟨(digitsToNat ip * 10 ^ fp.length + digitsToNat fp : Nat), 10 ^ fp.length⟩, r3)
  | _ => if ip.isEmpty then none else some (⟨(digitsToNat ip : Nat), 1⟩, r1)

/-- Parse an optional exponent suffix `[eE][+-]?digits`. -/
def parseExpSuffix (x : DecFloat) (l : List Char) : Option DecFloat :=
  match l with
  | [] => some x
  | e :: r1 =>
    if e == 'e' || e == 'E' then
      let sgn : Bool × List Char :=
        match r1 with
        | '+' :: r2 => (false, r2)
        | '-' :: r2 => (true, r2)
        | _ => (false, r1)
      let ds := sgn.2.takeWhile Char.isDigit
      let r3 := sgn.2.dropWhile Char.isDigit
      if ds.isEmpty || !r3.isEmpty then none
      else if sgn.1 then some ⟨x.num, x.den * 10 ^ digitsToNat ds⟩
      else some ⟨x.num * (10 : Int) ^ digitsToNat ds, x.den⟩
    else none

/-- Python `float(string)`: optional surrounding whitespace, optional sign,
decimal with optional fraction and exponent.  (`inf`/`nan`/underscore
forms are not modelled; no claim uses them.)  `none` models `ValueError`. -/
def parseFloatString (s : String) : Option DecFloat :=
  let l := trimChars s.data
  match l with
  | '+' :: r => (parseUnsigned r).bind fun pr => parseExpSuffix pr.1 pr.2
  | '-' :: r =>
    ((parseUnsigned r).bind fun pr => parseExpSuffix pr.1 pr.2).map
      fun x => ⟨-x.num, x.den⟩
  | _ => (parseUnsigned l).bind fun pr => parseExpSuffix pr.1 pr.2

/-- Python `float(v)` on a JSON-derived value: numbers and booleans coerce,
strings are parsed (`ValueError` on failure), anything else is a
`TypeError`. -/
def pyFloat : Json → Except PyError DecFloat
  | .num n => .ok ⟨n, 1⟩
  | .bool b => .ok ⟨if b then 1 else 0, 1⟩
  | .str s =>
    match parseFloatString s with
    | some q => .ok q
    | none => .error .valueError
  | _ => .error .typeError

/-- Round `a / den` (for `den > 0`) to the nearest natural number, ties to
even (Python's rounding in string formatting, over the exact value). -/
def roundHalfEvenNat (a den : Nat) : Nat :=
  let q := a / den
  let r := a % den
  if 2 * r < den then q
  else if den < 2 * r then q + 1
  else if q % 2 = 0 then q else q + 1

/-- Python `f"{value:.2f}"` over the exact decimal model. -/
def fmt2f (x : DecFloat) : String :=
  let n := roundHalfEvenNat (x.num.natAbs * 100) x.den
  (if x.num < 0 then "-" else "") ++ toString (n / 100) ++ "." ++
    (if n % 100 < 10 then "0" else "") ++ toString (n % 100)

/-- Python `v[i]` with an integer index: lists index (IndexError when out
of range), strings index characters, dicts look up the integer key (always
a `KeyError` here since JSON keys are strings), others raise `TypeError`. -/
def pyIndex (v : Json) (i : Nat) : Except PyError Json :=
  match v with
  | .arr xs =>
    match xs.get? i with
    | some x => .ok x
    | none => .error .indexError
  | .str s =>
    match s.data.get? i with
    | some c => .ok (.str ⟨[c]⟩)
    | none => .error .indexError
  | .obj _ => .error .keyError
  | _ => .error .typeError

/-- The observable outcome of `prom.custom_query(query=query)`: a list of
series (JSON-like dicts), a `PrometheusApiClientException`, or any other
exception. -/
inductive PromOutcome where
  | ok (series : List Json) : PromOutcome
  | apiError : PromOutcome
  | otherError : PromOutcome

/-- Lines 127–135, one series: build the label string from
`metric.get('metric', {})` (all labels except `__name__`, comma-joined
`key="value"` pairs, `"Total"` when empty), then
`float(metric['value'][1])`, and produce the formatted bullet line.
Errors model the Python exceptions of the same steps, all of which the
source catches with its blanket `except Exception`.
`seriesValueText` is the value-extraction half (`float(metric['value'][1])`
and the bullet line). -/
def seriesValueText (kvs : List (String × Json)) (label_str : String) :
    Except PyError String :=
  match kvs.lookup "value" with
  | none => .error .keyError
  | some v =>
    match pyIndex v 1 with
    | .error e => .error e
    | .ok elem =>
      match pyFloat elem with
      | .error e => .error e
      | .ok value =>
        .ok ("- `" ++ label_str ++ "`: **" ++ fmt2f value ++ "**\n")

/-- Line 130–132: the comma-joined `key="value"` label string, `"Total"`
when no label other than `__name__` remains. -/
def labelString (lkvs : List (String × Json)) : String :=
  let parts := lkvs.filterMap fun kv =>
    if kv.1 == "__name__" then none
    else some (kv.1 ++ "=\"" ++ pyStr kv.2 ++ "\"")
  let joined := String.intercalate ", " parts
  if joined == "" then "Total" else joined

/-- Lines 127–135 assembled: labels first (as in the source), then the
value extraction; a non-dict series or non-dict label map raises
`AttributeError` (`.get` / `.items()` on a non-dict). -/
def formatSeries (m : Json) : Except PyError String :=
  match m with
  | .obj kvs =>
    (match (kvs.lookup "metric").getD (.obj []) with
     | .obj lkvs => seriesValueText kvs (labelString lkvs)
     | _ => .error .attributeError)
  | _ => .error .attributeError

/-- The series loop of lines 127–137 for a non-empty result, including the
trailing `report_data += "\n"` of the success path and the
`except Exception` branch of line 142: lines appended before a
mid-iteration exception are retained, then the fixed marker is appended. -/
def seriesText : List Json → String
  | [] => "\n"
  | m :: ms =>
    match formatSeries m with
    | .ok line => line ++ seriesText ms
    | .error _ => "  - (알 수 없는 에러 발생)\n\n"

/-- Lines 117–144: the per-query section of the report, starting with the
`### {title}` header, then one of the three marker lines or the formatted
series. -/
def querySection (backend : String → PromOutcome) (item : QueryItem) : String :=
  "### " ++ pyStr item.title ++ "\n" ++
    match backend item.query with
    | .apiError => "  - (쿼리 실행 중 에러 발생)\n\n"
    | .otherError => "  - (알 수 없는 에러 발생)\n\n"
    | .ok [] => "- (데이터 없음)\n\n"
    | .ok (m :: ms) => seriesText (m :: ms)

/-- The query loop of lines 114–144, accumulating section texts in order. -/
def metricsLoop (backend : String → PromOutcome) : List QueryItem → String
  | [] => ""
  | item :: rest => querySection backend item ++ metricsLoop backend rest

/-- Line 112: the report header (an f-string over the `DASHBOARD_UID`
environment value). -/
def reportHeader (dashboard_uid : Option String) : String :=
  "## 📈 Grafana 대시보드 자동 요약 보고서\n(Dashboard: " ++ pyStrOpt dashboard_uid ++ ")\n\n"

/-- Lines 104–146: `get_metrics()`.  Returns `none` (Python `None`) when
extraction produced nothing; otherwise the accumulated report string.  An
exception propagating out of `get_all_queries_from_grafana` propagates out
of `get_metrics` too (the call is outside any `try`). -/
def get_metrics (cfg : GrafanaConfig) (dashboard_uid : Option String) (http : HttpOutcome)
    (backend : String → PromOutcome) : Except PyError (Option String) :=
  match (get_all_queries_from_grafana cfg dashboard_uid http).result with
  | .error e => .error e
  | .ok [] => .ok none
  | .ok (q :: qs) => .ok (some (reportHeader dashboard_uid ++ metricsLoop backend (q :: qs)))

/-! ## Narrative Generator (`generate_report_with_gemini`, lines 149–181) -/

/-- Line 153: the fixed notice returned when `GEMINI_API_KEY` is falsy. -/
def geminiNoKeyMsg : String := "Gemini API 키가 설정되지 않았습니다."

/-- Line 156: the fixed notice returned when `metrics_text` is falsy. -/
def geminiNoDataMsg : String := "메트릭 데이터를 수집하지 못해 리포트를 생성할 수 없습니다."

/-- Lines 161–175: the instructional prompt f-string with `metrics_text`
interpolated. -/
def geminiPrompt (metrics_text : String) : String :=
  "\n        당신은 쿠버네티스 홈서버 클러스터를 관리하는 시스템 관리 전문가입니다.\n" ++
  "        아래에 제공된 Grafana 대시보드의 데이터를 분석하여 한국어로 된 기술적인 상태 보고서를 작성해주세요.\n\n" ++
  "        보고서는 Discord에 게시될 것이므로, 마크다운 문법을 적극적으로 사용하여 가독성을 높여주세요. (예: **, ###, `, > 등)\n        \n" ++
  "        보고서에는 다음 내용이 포함되어야 합니다:\n" ++
  "        1.  **전체 시스템 상태 요약**: 클러스터가 안정적인지, 주의가 필요한 부분이 있는지 간결하게 요약합니다.\n" ++
  "        2.  **주요 메트릭 분석**: 각 항목(CPU, 메모리, 디스크, 네트워크 등)을 해석하고, 평소와 다른 특이사항이나 임계치에 가까운 값이 있는지 언급합니다.\n" ++
  "        3.  **잠재적 문제점 및 권장 사항**: 데이터 추세를 기반으로 앞으로 발생할 수 있는 문제(예: 디스크 용량 부족 경고, 특정 워크로드의 과도한 리소스 사용 등)를 지적하고, 필요한 조치나 확인해볼 사항을 제안해주세요.\n\n" ++
  "        --- 데이터 ---\n        " ++ metrics_text ++ "\n        --- 보고서 시작 ---\n        "

/-- What a call of `generate_report_with_gemini` did: the returned string
(the function always returns, never raises) and whether the generative
service was contacted. -/
structure GeminiRun where
  output : String
  contacted : Bool

/-- Lines 149–181: `generate_report_with_gemini(metrics_text)`.  The
service interaction (model construction + `generate_content` +
`response.text`) is the parameter `svc`; any exception it raises is the
`.error` case, which the source converts into a descriptive string. -/
def generate_report_with_gemini (gemini_api_key : Option String)
    (metrics_text : Option String) (svc : String → Except String String) : GeminiRun :=
  if !optTruthy gemini_api_key then ⟨geminiNoKeyMsg, false⟩
  else if !optTruthy metrics_text then ⟨geminiNoDataMsg, false⟩
  else
    match svc (geminiPrompt (metrics_text.getD "")) with
    | .ok text => ⟨text, true⟩
    | .error e => ⟨"Gemini API 호출 중 에러가 발생했습니다: " ++ e, true⟩

/-! ## Notifier (`send_to_discord`, lines 184–200) -/

/-- Line 192: `[report_content[i:i + 1990] for i in range(0, len(report_content), 1990)]`
over character lists. -/
def chunksAux : List Char → List (List Char)
  | [] => []
  | c :: rest => ((c :: rest).take 1990) :: chunksAux (rest.drop 1989)
termination_by l => l.length
decreasing_by
  simp [List.length_drop]
  omega

/-- The chunk list as strings. -/
def discordChunks (s : String) : List String :=
  (chunksAux s.data).map fun l => ⟨l⟩

/-- An observable action of `send_to_discord`: one webhook POST (whose JSON
payload is `{"content": chunk}`), or the fallback `print` of the whole
report when no webhook is configured. -/
inductive NotifierAction where
  | postCall (content : String) : NotifierAction
  | logFallback (content : String) : NotifierAction

/-- Lines 184–200: `send_to_discord(report_content)`.  Without a webhook
URL the content is printed and nothing is posted; otherwise one POST is
issued per chunk.  Each POST failure is caught and the loop continues, so
the posts issued are exactly the chunks, in order, regardless of
failures. -/
def send_to_discord (discord_webhook_url : Option String) (report_content : String) :
    List NotifierAction :=
  if !optTruthy discord_webhook_url then [.logFallback report_content]
  else (discordChunks report_content).map .postCall

/-- The POST bodies among a list of notifier actions. -/
def postedContents (as : List NotifierAction) : List String :=
  as.filterMap fun a =>
    match a with
    | .postCall c => some c
    | .logFallback _ => none

/-- Concatenation of a list of strings in order. -/
def concatStrings : List String → String
  | [] => ""
  | s :: rest => s ++ concatStrings rest

/-! ## Occurrence and prefix infrastructure

`occursB pat l` decides whether `pat` occurs as a contiguous substring of
`l` (Python's `pat in l` for non-empty `pat`); it is the notion of
"contains" / "remaining occurrence" used by the claims about templating
substitution and marker lines. -/

/-- Substring occurrence at any position (non-empty patterns). -/
def occursB (q : List Char) : List Char → Bool
  | [] => false
  | c :: rest => pfxB q (c :: rest) || occursB q rest

/-- `pat` occurs in the string `s` (Python `pat in s` for non-empty `pat`). -/
def strContains (s pat : String) : Bool := occursB pat.data s.data

theorem pfxB_append (p x : List Char) : pfxB p (p ++ x) = true := by
  induction p with
  | nil => rfl
  | cons a as ih => simp [pfxB, ih]

theorem pfxB_refl (p : List Char) : pfxB p p = true := by
  have := pfxB_append p []
  simpa using this

theorem pfxB_extend {p l : List Char} (t : List Char) (h : pfxB p l = true) :
    pfxB p (l ++ t) = true := by
  induction p generalizing l with
  | nil => rfl
  | cons a as ih =>
    cases l with
    | nil => simp [pfxB] at h
    | cons b bs =>
      simp only [pfxB, Bool.and_eq_true, beq_iff_eq] at h
      simp [pfxB, h.1, ih h.2]

theorem pfxB_head {a b : Char} {as bs : List Char}
    (h : pfxB (a :: as) (b :: bs) = true) : a = b ∧ pfxB as bs = true := by
  simpa [pfxB] using h

theorem pfxB_eq_append {p l : List Char} (h : pfxB p l = true) :
    l = p ++ l.drop p.length := by
  induction p generalizing l with
  | nil => simp
  | cons a as ih =>
    cases l with
    | nil => simp [pfxB] at h
    | cons b bs =>
      obtain ⟨hab, htail⟩ := pfxB_head h
      simpa [hab] using congrArg (b :: ·) (ih htail)

theorem occursB_cons {q : List Char} (c : Char) {rest : List Char}
    (h : occursB q rest = true) : occursB q (c :: rest) = true := by
  simp [occursB, h]

theorem occursB_append_left {q t : List Char} (s : List Char)
    (h : occursB q t = true) : occursB q (s ++ t) = true := by
  induction s with
  | nil => simpa using h
  | cons c cs ih => simpa using occursB_cons c ih

theorem occursB_append_right {q s : List Char} (t : List Char)
    (h : occursB q s = true) : occursB q (s ++ t) = true := by
  induction s with
  | nil => simp [occursB] at h
  | cons c cs ih =>
    simp only [occursB, Bool.or_eq_true] at h
    rcases h with h | h
    · have := pfxB_extend t h
      simp only [List.cons_append] at this ⊢
      simp [occursB, this]
    · simpa using occursB_cons c (ih h)

theorem occursB_self_append (q t : List Char) (hq : q ≠ []) :
    occursB q (q ++ t) = true := by
  cases q with
  | nil => exact absurd rfl hq
  | cons a as =>
    have := pfxB_append (a :: as) t
    simp only [List.cons_append] at this ⊢
    simp [occursB, this]

theorem occursB_drop {q : List Char} (n : Nat) (l : List Char)
    (h : occursB q (l.drop n) = true) : occursB q l = true := by
  induction n generalizing l with
  | zero => simpa using h
  | succ m ih =>
    cases l with
    | nil => simpa using h
    | cons c rest => exact occursB_cons c (ih rest (by simpa using h))

theorem occursB_clean_append {q A X : List Char} (hq : q ≠ [])
    (hdisj : ∀ a ∈ A, a ∉ q) (h : occursB q (A ++ X) = true) :
    occursB q X = true := by
  induction A with
  | nil => simpa using h
  | cons a A' ih =>
    refine ih (fun x hx => hdisj x (List.mem_cons_of_mem a hx)) ?_
    cases q with
    | nil => exact absurd rfl hq
    | cons q0 q' =>
      simp only [List.cons_append, occursB, Bool.or_eq_true] at h
      rcases h with h | h
      · obtain ⟨he, _⟩ := pfxB_head h
        exact absurd (he ▸ List.mem_cons_self q0 q') (hdisj a (List.mem_cons_self a A'))
      · exact h

/-! ## Properties of `replaceAux` (Python `str.replace`) -/

theorem isEmpty_false_of_ne {pat : List Char} (h : pat ≠ []) : pat.isEmpty = false := by
  cases pat with
  | nil => exact absurd rfl h
  | cons a as => rfl

/-- The fuel argument of `replaceAuxF` is irrelevant as long as it is at
least the list length. -/
theorem replaceAuxF_fuel (pat rep : List Char) :
    ∀ (f1 : Nat) (l : List Char) (f2 : Nat), l.length ≤ f1 → l.length ≤ f2 →
      replaceAuxF pat rep f1 l = replaceAuxF pat rep f2 l := by
  intro f1
  induction f1 with
  | zero =>
    intro l f2 h1 _
    have hl : l = [] := List.eq_nil_of_length_eq_zero (Nat.le_zero.mp h1)
    subst hl
    cases f2 <;> rfl
  | succ f ih =>
    intro l f2 h1 h2
    cases l with
    | nil => cases f2 <;> rfl
    | cons c rest =>
      cases f2 with
      | zero => simp at h2
      | succ g =>
        have hr1 : rest.length ≤ f := by simpa using h1
        have hr2 : rest.length ≤ g := by simpa using h2
        have hdrop : ∀ k : Nat, (rest.drop k).length ≤ rest.length := by
          intro k
          rw [List.length_drop]
          omega
        simp only [replaceAuxF]
        split
        · exact congrArg (rep ++ ·) (ih _ g (le_trans (hdrop _) hr1) (le_trans (hdrop _) hr2))
        · exact congrArg (c :: ·) (ih rest g hr1 hr2)

/-- Induction along the recursion structure of `replaceAux`. -/
theorem replaceRec (pat : List Char) {motive : List Char → Prop}
    (base : motive [])
    (pos : ∀ c rest, (pfxB pat (c :: rest) && !pat.isEmpty) = true →
      motive (rest.drop (pat.length - 1)) → motive (c :: rest))
    (neg : ∀ c rest, (pfxB pat (c :: rest) && !pat.isEmpty) = false →
      motive rest → motive (c :: rest)) : ∀ l, motive l := by
  have H : ∀ (n : Nat) (l : List Char), l.length ≤ n → motive l := by
    intro n
    induction n with
    | zero =>
      intro l hl
      have : l = [] := List.eq_nil_of_length_eq_zero (Nat.le_zero.mp hl)
      exact this ▸ base
    | succ n ih =>
      intro l hl
      cases l with
      | nil => exact base
      | cons c rest =>
        have hr : rest.length ≤ n := by simpa using hl
        cases hcond : (pfxB pat (c :: rest) && !pat.isEmpty) with
        | true =>
          refine pos c rest hcond (ih _ ?_)
          rw [List.length_drop]
          omega
        | false => exact neg c rest hcond (ih rest hr)
  exact fun l => H l.length l le_rfl

theorem replaceAux_nil (pat rep : List Char) : replaceAux pat rep [] = [] := rfl

theorem replaceAux_pos {pat : List Char} (rep : List Char) {c : Char} {rest : List Char}
    (h : pfxB pat (c :: rest) = true) (hp : pat ≠ []) :
    replaceAux pat rep (c :: rest) = rep ++ replaceAux pat rep (rest.drop (pat.length - 1)) := by
  unfold replaceAux
  simp only [List.length_cons, replaceAuxF, h, isEmpty_false_of_ne hp]
  simp only [Bool.not_false, Bool.and_true, if_true]
  exact congrArg (rep ++ ·)
    (replaceAuxF_fuel pat rep rest.length (rest.drop (pat.length - 1)) _
      (by rw [List.length_drop]; omega) le_rfl)

theorem replaceAux_else {pat rep : List Char} {c : Char} {rest : List Char}
    (h : (pfxB pat (c :: rest) && !pat.isEmpty) = false) :
    replaceAux pat rep (c :: rest) = c :: replaceAux pat rep rest := by
  unfold replaceAux
  simp only [List.length_cons, replaceAuxF, h]
  simp

theorem replaceAux_neg {pat : List Char} (rep : List Char) {c : Char} {rest : List Char}
    (h : pfxB pat (c :: rest) = false) :
    replaceAux pat rep (c :: rest) = c :: replaceAux pat rep rest :=
  replaceAux_else (by simp [h])

/-- The replacement of a non-empty string is non-empty (for a non-empty
replacement text). -/
theorem replaceAux_ne_nil {pat rep : List Char} (hrep : rep ≠ []) {l : List Char}
    (hl : l ≠ []) : replaceAux pat rep l ≠ [] := by
  cases l with
  | nil => exact absurd rfl hl
  | cons c rest =>
    unfold replaceAux
    simp only [List.length_cons, replaceAuxF]
    split
    · simp [hrep]
    · simp

/-- A prefix of the replaced string whose characters avoid the replacement
text was already a prefix of the original string. -/
theorem pfxB_replaceAux {pat rep : List Char} (hrep : rep ≠ []) (l : List Char) :
    ∀ q : List Char, q ≠ [] → (∀ a ∈ q, a ∉ rep) →
      pfxB q (replaceAux pat rep l) = true → pfxB q l = true := by
  induction l using replaceRec pat with
  | base =>
    intro q hq _ h
    rw [replaceAux_nil] at h
    cases q with
    | nil => exact absurd rfl hq
    | cons q0 q' => simp [pfxB] at h
  | pos c rest hc ih =>
    intro q hq hdisj h
    simp only [Bool.and_eq_true] at hc
    have hp : pat ≠ [] := by
      intro he
      rw [he] at hc
      simp [List.isEmpty] at hc
    rw [replaceAux_pos rep hc.1 hp] at h
    cases q with
    | nil => exact absurd rfl hq
    | cons q0 q' =>
      cases hr : rep with
      | nil => exact absurd hr hrep
      | cons r0 r' =>
        rw [hr, List.cons_append] at h
        obtain ⟨he, _⟩ := pfxB_head h
        have : q0 ∉ rep := hdisj q0 (List.mem_cons_self q0 q')
        rw [hr, he] at this
        exact absurd (List.mem_cons_self r0 r') this
  | neg c rest hc ih =>
    intro q hq hdisj h
    rw [replaceAux_else hc] at h
    cases q with
    | nil => exact absurd rfl hq
    | cons q0 q' =>
      obtain ⟨he, htail⟩ := pfxB_head h
      have hxs : pfxB q' rest = true := by
        cases q' with
        | nil => rfl
        | cons x xs =>
          exact ih (x :: xs) (by simp)
            (fun a ha => hdisj a (List.mem_cons_of_mem q0 ha)) htail
      simp [pfxB, he, hxs]

/-- An occurrence in the replaced string whose characters avoid the
replacement text was already an occurrence in the original string. -/
theorem occursB_replaceAux {pat rep : List Char} (hrep : rep ≠ []) (l : List Char) :
    ∀ q : List Char, q ≠ [] → (∀ a ∈ q, a ∉ rep) →
      occursB q (replaceAux pat rep l) = true → occursB q l = true := by
  induction l using replaceRec pat with
  | base =>
    intro q hq _ h
    rw [replaceAux_nil] at h
    simp [occursB] at h
  | pos c rest hc ih =>
    intro q hq hdisj h
    simp only [Bool.and_eq_true] at hc
    have hp : pat ≠ [] := by
      intro he
      rw [he] at hc
      simp [List.isEmpty] at hc
    rw [replaceAux_pos rep hc.1 hp] at h
    have hocc := occursB_clean_append hq (fun a ha hmem => hdisj a hmem ha) h
    exact occursB_cons c (occursB_drop _ rest (ih q hq hdisj hocc))
  | neg c rest hc ih =>
    intro q hq hdisj h
    have helse : replaceAux pat rep (c :: rest) = c :: replaceAux pat rep rest :=
      replaceAux_else hc
    rw [helse] at h
    simp only [occursB, Bool.or_eq_true] at h
    rcases h with h | h
    · have : pfxB q (replaceAux pat rep (c :: rest)) = true := by
        rw [helse]
        exact h
      have := pfxB_replaceAux hrep (c :: rest) q hq hdisj this
      simp [occursB, this]
    · exact occursB_cons c (ih q hq hdisj h)

/-- After `str.replace(pat, rep)` no occurrence of `pat` remains, provided
`rep` shares no character with `pat` (true of both substitutions the
source performs). -/
theorem occursB_replaceAux_self {pat rep : List Char} (hpat : pat ≠ []) (hrep : rep ≠ [])
    (hdisj : ∀ a ∈ pat, a ∉ rep) (l : List Char) :
    occursB pat (replaceAux pat rep l) = false := by
  induction l using replaceRec pat with
  | base =>
    rw [replaceAux_nil]
    rfl
  | pos c rest hc ih =>
    simp only [Bool.and_eq_true] at hc
    rw [replaceAux_pos rep hc.1 hpat]
    cases h : occursB pat (rep ++ replaceAux pat rep (rest.drop (pat.length - 1))) with
    | false => rfl
    | true =>
      have := occursB_clean_append hpat (fun a ha hmem => hdisj a hmem ha) h
      rw [ih] at this
      exact absurd this (by simp)
  | neg c rest hc ih =>
    have hpfx : pfxB pat (c :: rest) = false := by
      cases h : pfxB pat (c :: rest) with
      | false => rfl
      | true => simp [h, isEmpty_false_of_ne hpat] at hc
    rw [replaceAux_neg rep hpfx]
    have hfirst : pfxB pat (c :: replaceAux pat rep rest) = false := by
      cases h : pfxB pat (c :: replaceAux pat rep rest) with
      | false => rfl
      | true =>
        have h2 : pfxB pat (replaceAux pat rep (c :: rest)) = true := by
          rw [replaceAux_neg rep hpfx]
          exact h
        have h3 := pfxB_replaceAux hrep (c :: rest) pat hpat hdisj h2
        rw [hpfx] at h3
        exact absurd h3 (by simp)
    simp [occursB, hfirst, ih]

/-! ## Simultaneous substitution (spec-side definition for claim C4) -/

theorem rngTok_ne_nil : rngTok ≠ [] := by decide

theorem ivlTok_ne_nil : ivlTok ≠ [] := by decide

theorem ivlTok_eq : ivlTok = '$' :: "__interval".data := rfl

theorem rngTok_eq : rngTok = '$' :: "__range".data := rfl

theorem disj_ivl_24h : ∀ a ∈ ivlTok, a ∉ "24h".data := by decide

theorem disj_rng_24h : ∀ a ∈ rngTok, a ∉ "24h".data := by decide

theorem disj_rng_5m : ∀ a ∈ rngTok, a ∉ "5m".data := by decide

theorem disj_ivl_5m : ∀ a ∈ ivlTok, a ∉ "5m".data := by decide

theorem no_dollar_24h : ∀ a ∈ "24h".data, a ≠ '$' := by decide

theorem no_dollar_ivl_tail : ∀ a ∈ "__interval".data, a ≠ '$' := by decide

/-- Spec-side definition transcribing claim C4's wording: a single
left-to-right pass over the query that replaces every occurrence of
`$__range` by the literal `24h` and every occurrence of `$__interval` by
the literal `5m` (the two tokens never overlap, so scan order does not
matter). -/
def simulSubstAux : List Char → List Char
  | [] => []
  | c :: rest =>
    if pfxB rngTok (c :: rest) then "24h".data ++ simulSubstAux (rest.drop 7)
    else if pfxB ivlTok (c :: rest) then "5m".data ++ simulSubstAux (rest.drop 10)
    else c :: simulSubstAux rest
termination_by l => l.length
decreasing_by
  all_goals simp [List.length_drop]
  all_goals omega

/-- The simultaneous substitution lifted to `String`. -/
def simulSubst (q : String) : String := ⟨simulSubstAux q.data⟩

theorem simulSubstAux_nil : simulSubstAux [] = [] := by rw [simulSubstAux]

theorem simulSubstAux_rng {c : Char} {rest : List Char}
    (h : pfxB rngTok (c :: rest) = true) :
    simulSubstAux (c :: rest) = "24h".data ++ simulSubstAux (rest.drop 7) := by
  rw [simulSubstAux]
  simp [h]

theorem simulSubstAux_ivl {c : Char} {rest : List Char}
    (h1 : pfxB rngTok (c :: rest) = false) (h2 : pfxB ivlTok (c :: rest) = true) :
    simulSubstAux (c :: rest) = "5m".data ++ simulSubstAux (rest.drop 10) := by
  rw [simulSubstAux]
  simp [h1, h2]

theorem simulSubstAux_neg {c : Char} {rest : List Char}
    (h1 : pfxB rngTok (c :: rest) = false) (h2 : pfxB ivlTok (c :: rest) = false) :
    simulSubstAux (c :: rest) = c :: simulSubstAux rest := by
  rw [simulSubstAux]
  simp [h1, h2]

/-- Replacement walks over a block that cannot start a match (no character
of `A` equals the pattern's head). -/
theorem replaceAux_clean_append {pat rep : List Char} {p0 : Char} {ptail : List Char}
    (hpat : pat = p0 :: ptail) {A : List Char} (hA : ∀ a ∈ A, a ≠ p0) (X : List Char) :
    replaceAux pat rep (A ++ X) = A ++ replaceAux pat rep X := by
  induction A with
  | nil => simp
  | cons a A' ih =>
    have hne0 : p0 ≠ a := fun he => (hA a (List.mem_cons_self a A')) he.symm
    have hbe : (p0 == a) = false := beq_eq_false_iff_ne.mpr hne0
    have hne : pfxB pat (a :: (A' ++ X)) = false := by
      rw [hpat]
      simp [pfxB, hbe]
    rw [List.cons_append, replaceAux_neg rep hne,
      ih (fun x hx => hA x (List.mem_cons_of_mem a hx)), List.cons_append]

/-- Replacement fires immediately on a leading occurrence of the pattern. -/
theorem replaceAux_self_append {pat rep : List Char} (hpat : pat ≠ []) (X : List Char) :
    replaceAux pat rep (pat ++ X) = rep ++ replaceAux pat rep X := by
  cases hp : pat with
  | nil => exact absurd hp hpat
  | cons a as =>
    have hpfx : pfxB (a :: as) (a :: (as ++ X)) = true := by
      have h0 := pfxB_append (a :: as) X
      rwa [List.cons_append] at h0
    rw [List.cons_append, replaceAux_pos rep hpfx (by simp)]
    have hlen : (a :: as).length - 1 = as.length := by simp
    rw [hlen, List.drop_left]

/-- The two sequential `str.replace` calls of line 89 implement the
simultaneous one-pass substitution: replacing `$__range` first can neither
destroy nor create an occurrence of `$__interval`, and vice versa (the
tokens share no character with either replacement literal and never
overlap each other). -/
theorem subst_eq_simul : ∀ l : List Char,
    replaceAux ivlTok "5m".data (replaceAux rngTok "24h".data l) = simulSubstAux l := by
  intro l
  induction l using simulSubstAux.induct with
  | case1 => rw [replaceAux_nil, replaceAux_nil, simulSubstAux_nil]
  | case2 c rest h ih =>
    rw [replaceAux_pos "24h".data h rngTok_ne_nil,
      (by decide : rngTok.length - 1 = 7),
      replaceAux_clean_append ivlTok_eq no_dollar_24h _, ih, simulSubstAux_rng h]
  | case3 c rest h1 h2 ih =>
    have h1' : pfxB rngTok (c :: rest) = false := by simpa using h1
    have hc : '$' = c ∧ pfxB "__interval".data rest = true := pfxB_head (ivlTok_eq ▸ h2)
    have hrest : rest = "__interval".data ++ rest.drop 10 := by
      have h3 := pfxB_eq_append hc.2
      rw [(by decide : ("__interval".data).length = 10)] at h3
      exact h3
    have hinner : replaceAux rngTok "24h".data (c :: rest)
        = ivlTok ++ replaceAux rngTok "24h".data (rest.drop 10) := by
      rw [replaceAux_neg "24h".data h1']
      conv_lhs => rw [hrest]
      rw [replaceAux_clean_append rngTok_eq no_dollar_ivl_tail _, ← hc.1, ivlTok_eq]
      simp
    rw [hinner, replaceAux_self_append ivlTok_ne_nil _, ih, simulSubstAux_ivl h1' h2]
  | case4 c rest h1 h2 ih =>
    have h1' : pfxB rngTok (c :: rest) = false := by simpa using h1
    have h2' : pfxB ivlTok (c :: rest) = false := by simpa using h2
    rw [replaceAux_neg "24h".data h1']
    have hfirst : pfxB ivlTok (c :: replaceAux rngTok "24h".data rest) = false := by
      cases h : pfxB ivlTok (c :: replaceAux rngTok "24h".data rest) with
      | false => rfl
      | true =>
        have h3 : pfxB ivlTok (replaceAux rngTok "24h".data (c :: rest)) = true := by
          rw [replaceAux_neg "24h".data h1']
          exact h
        have h4 := pfxB_replaceAux (by decide) (c :: rest) ivlTok ivlTok_ne_nil disj_ivl_24h h3
        rw [h2'] at h4
        exact absurd h4 (by simp)
    rw [replaceAux_neg "5m".data hfirst, ih, simulSubstAux_neg h1' h2']

/-! ## Characterization of a successful extraction (claims C3, C9)

The definitions below transcribe the claim's declarative description of
the extraction output — qualification, per-target contribution, encounter
order — for comparison with the imperative walk `extractFromBody`. -/

/-- Claim C3's description of one target's contribution: a target that is
not hidden and has a non-empty (string) expression contributes exactly its
query item (with tokens substituted); every other target contributes
nothing. -/
def targetContribution (panel_title : Json) (target : Json) : Option QueryItem :=
  match target with
  | .obj kvs =>
    if truthy ((kvs.lookup "hide").getD .null) then none
    else
      match kvs.lookup "expr" with
      | some (.str q) => if q != "" then some ⟨panel_title, substTokens q⟩ else none
      | _ => none
  | _ => none

/-- Claim C3's description of one panel's contribution: a panel with a
`targets` field and a qualifying datasource (per the code's rule: absent
defaults to `{}`, so explicitly-null or prometheus-typed) contributes its
targets' items in encounter order; any other panel contributes nothing. -/
def panelContribution (panel : Json) : List QueryItem :=
  match panel with
  | .obj kvs =>
    if (kvs.lookup "targets").isSome
        && isPromDatasource ((kvs.lookup "datasource").getD (.obj [])) then
      match (kvs.lookup "targets").getD .null with
      | .arr ts =>
        ts.filterMap (targetContribution ((kvs.lookup "title").getD (.str "제목 없는 패널")))
      | _ => []
    else []
  | _ => []

/-- The panels list of a dashboard body (empty for the degenerate
successful shapes: absent `dashboard`/`panels` keys, or an empty
non-list `panels`). -/
def bodyPanels (j : Json) : List Json :=
  match j with
  | .obj kvs =>
    (match (kvs.lookup "dashboard").getD (.obj []) with
     | .obj dkvs =>
       (match (dkvs.lookup "panels").getD (.arr []) with
        | .arr ps => ps
        | _ => [])
     | _ => [])
  | _ => []

theorem processTarget_shape (panel_title target : Json) :
    processTarget panel_title target = .ok (targetContribution panel_title target) ∨
    processTarget panel_title target = .error .attributeError := by
  cases target with
  | null => exact .inr rfl
  | bool b => exact .inr rfl
  | num n => exact .inr rfl
  | str s => exact .inr rfl
  | arr xs => exact .inr rfl
  | obj kvs =>
    by_cases hh : truthy ((kvs.lookup "hide").getD .null) = true
    · left
      simp [processTarget, targetContribution, hh]
    · have hh' : truthy ((kvs.lookup "hide").getD .null) = false := by simpa using hh
      cases hexpr : kvs.lookup "expr" with
      | none => left; simp [processTarget, targetContribution, hh', hexpr]
      | some e =>
        by_cases ht : truthy e = true
        · cases e with
          | str q =>
            left
            have hq : (q != "") = true := by simpa [truthy] using ht
            simp [processTarget, targetContribution, hh', hexpr, ht, hq]
          | null => simp [truthy] at ht
          | bool b =>
            right
            simp [processTarget, hh', hexpr, ht]
          | num n =>
            right
            simp [processTarget, hh', hexpr, ht]
          | arr xs =>
            right
            simp [processTarget, hh', hexpr, ht]
          | obj o =>
            right
            simp [processTarget, hh', hexpr, ht]
        · have ht' : truthy e = false := by simpa using ht
          left
          cases e with
          | str q =>
            have hq : (q != "") = false := by simpa [truthy] using ht'
            simp [processTarget, targetContribution, hh', hexpr, ht', hq]
          | null => simp [processTarget, targetContribution, hh', hexpr, ht']
          | bool b => simp [processTarget, targetContribution, hh', hexpr, ht']
          | num n => simp [processTarget, targetContribution, hh', hexpr, ht']
          | arr xs => simp [processTarget, targetContribution, hh', hexpr, ht']
          | obj o => simp [processTarget, targetContribution, hh', hexpr, ht']

theorem processTargets_ok {panel_title : Json} {ts : List Json} {out : List QueryItem}
    (h : processTargets panel_title ts = .ok out) :
    out = ts.filterMap (targetContribution panel_title) := by
  induction ts generalizing out with
  | nil =>
    simp only [processTargets] at h
    cases h
    rfl
  | cons t ts ih =>
    simp only [processTargets] at h
    rcases processTarget_shape panel_title t with hs | hs
    · rw [hs] at h
      cases hc : targetContribution panel_title t with
      | none =>
        rw [hc] at h
        rw [List.filterMap_cons, hc]
        exact ih h
      | some item =>
        rw [hc] at h
        cases hr : processTargets panel_title ts with
        | error e =>
          rw [hr] at h
          exact absurd h (by simp)
        | ok rest =>
          rw [hr] at h
          cases h
          rw [List.filterMap_cons, hc, ih hr]
    · rw [hs] at h
      exact absurd h (by simp)

theorem processPanel_ok {panel : Json} {out : List QueryItem}
    (h : processPanel panel = .ok out) : out = panelContribution panel := by
  cases panel with
  | null => exact absurd h (by simp [processPanel])
  | bool b => exact absurd h (by simp [processPanel])
  | num n => exact absurd h (by simp [processPanel])
  | str s => exact absurd h (by simp [processPanel])
  | arr xs => exact absurd h (by simp [processPanel])
  | obj kvs =>
    simp only [processPanel] at h
    simp only [panelContribution]
    by_cases hq : ((kvs.lookup "targets").isSome
        && isPromDatasource ((kvs.lookup "datasource").getD (.obj []))) = true
    · rw [if_pos hq] at h
      rw [if_pos hq]
      cases htv : (kvs.lookup "targets").getD .null with
      | arr ts =>
        simp only [htv, pyIter] at h ⊢
        exact processTargets_ok h
      | str s =>
        simp only [htv, pyIter] at h ⊢
        cases hs : s.data with
        | nil =>
          rw [hs] at h
          simp only [List.map_nil, processTargets] at h
          cases h
          rfl
        | cons c cs =>
          rw [hs] at h
          simp only [List.map_cons, processTargets, processTarget] at h
          exact absurd h (by simp)
      | obj o =>
        simp only [htv, pyIter] at h ⊢
        cases o with
        | nil =>
          simp only [List.map_nil, processTargets] at h
          cases h
          rfl
        | cons kv kvrest =>
          simp only [List.map_cons, processTargets, processTarget] at h
          exact absurd h (by simp)
      | null =>
        simp only [htv, pyIter] at h
        exact absurd h (by simp)
      | bool b =>
        simp only [htv, pyIter] at h
        exact absurd h (by simp)
      | num n =>
        simp only [htv, pyIter] at h
        exact absurd h (by simp)
    · rw [if_neg hq] at h
      rw [if_neg hq]
      cases h
      rfl

theorem processPanels_ok {ps : List Json} {out : List QueryItem}
    (h : processPanels ps = .ok out) : out = ps.flatMap panelContribution := by
  induction ps generalizing out with
  | nil =>
    simp only [processPanels] at h
    cases h
    rfl
  | cons p ps ih =>
    simp only [processPanels] at h
    cases hp : processPanel p with
    | error e =>
      rw [hp] at h
      exact absurd h (by simp)
    | ok items =>
      rw [hp] at h
      cases hr : processPanels ps with
      | error e =>
        rw [hr] at h
        exact absurd h (by simp)
      | ok rest =>
        rw [hr] at h
        cases h
        rw [List.flatMap_cons, ← processPanel_ok hp, ih hr]

theorem extractFromBody_ok {j : Json} {out : List QueryItem}
    (h : extractFromBody j = .ok out) :
    out = (bodyPanels j).flatMap panelContribution := by
  cases j with
  | null => exact absurd h (by simp [extractFromBody])
  | bool b => exact absurd h (by simp [extractFromBody])
  | num n => exact absurd h (by simp [extractFromBody])
  | str s => exact absurd h (by simp [extractFromBody])
  | arr xs => exact absurd h (by simp [extractFromBody])
  | obj kvs =>
    simp only [extractFromBody] at h
    simp only [bodyPanels]
    cases hd : (kvs.lookup "dashboard").getD (.obj []) with
    | obj dkvs =>
      simp only [hd] at h ⊢
      cases hp : (dkvs.lookup "panels").getD (.arr []) with
      | arr ps =>
        simp only [hp, pyIter] at h ⊢
        exact processPanels_ok h
      | str s =>
        simp only [hp, pyIter] at h ⊢
        cases hs : s.data with
        | nil =>
          rw [hs] at h
          simp only [List.map_nil, processPanels] at h
          cases h
          rfl
        | cons c cs =>
          rw [hs] at h
          simp only [List.map_cons, processPanels, processPanel] at h
          exact absurd h (by simp)
      | obj o =>
        simp only [hp, pyIter] at h ⊢
        cases o with
        | nil =>
          simp only [List.map_nil, processPanels] at h
          cases h
          rfl
        | cons kv kvrest =>
          simp only [List.map_cons, processPanels, processPanel] at h
          exact absurd h (by simp)
      | null =>
        simp only [hp, pyIter] at h
        exact absurd h (by simp)
      | bool b =>
        simp only [hp, pyIter] at h
        exact absurd h (by simp)
      | num n =>
        simp only [hp, pyIter] at h
        exact absurd h (by simp)
    | null =>
      simp only [hd] at h
      exact absurd h (by simp)
    | bool b =>
      simp only [hd] at h
      exact absurd h (by simp)
    | num n =>
      simp only [hd] at h
      exact absurd h (by simp)
    | str s =>
      simp only [hd] at h
      exact absurd h (by simp)
    | arr xs =>
      simp only [hd] at h
      exact absurd h (by simp)

/-- Every successful run of `get_all_queries_from_grafana` either returned
the empty list through one of the guard paths, or walked a parsed body of
a 200 response. -/
theorem extraction_run_cases {cfg : GrafanaConfig} {uid : Option String}
    {http : HttpOutcome} {out : List QueryItem}
    (h : (get_all_queries_from_grafana cfg uid http).result = .ok out) :
    out = [] ∨ ∃ j, http = .response 200 (some j) ∧ extractFromBody j = .ok out := by
  unfold get_all_queries_from_grafana at h
  split at h
  · cases h
    exact .inl rfl
  · cases http with
    | networkError =>
      cases h
      exact .inl rfl
    | response status body =>
      simp only at h
      split at h
      · cases h
        exact .inl rfl
      · rename_i hst
        have hst' : status = 200 := by simpa using hst
        cases body with
        | none =>
          cases h
          exact .inl rfl
        | some j =>
          subst hst'
          exact .inr ⟨j, rfl, h⟩

/-! ## String containment helpers (claim C5) -/

theorem strContains_append_of_right {pat t : String} (s : String)
    (h : strContains t pat = true) : strContains (s ++ t) pat = true := by
  unfold strContains at h ⊢
  rw [String.data_append]
  exact occursB_append_left s.data h

theorem strContains_append_of_left {pat s : String} (t : String)
    (h : strContains s pat = true) : strContains (s ++ t) pat = true := by
  unfold strContains at h ⊢
  rw [String.data_append]
  exact occursB_append_right t.data h

theorem strContains_self_append {pat : String} (t : String) (hp : pat ≠ "") :
    strContains (pat ++ t) pat = true := by
  unfold strContains
  rw [String.data_append]
  refine occursB_self_append _ _ ?_
  intro hd
  apply hp
  cases pat with
  | mk l =>
    simp only at hd
    rw [hd]

/-- Each query's section occurs inside the loop's accumulated text. -/
theorem strContains_metricsLoop {backend : String → PromOutcome} {qs : List QueryItem}
    {item : QueryItem} (h : item ∈ qs) {pat : String}
    (hsec : strContains (querySection backend item) pat = true) :
    strContains (metricsLoop backend qs) pat = true := by
  induction qs with
  | nil => cases h
  | cons q rest ih =>
    rw [metricsLoop]
    rcases List.mem_cons.mp h with rfl | hmem
    · exact strContains_append_of_left _ hsec
    · exact strContains_append_of_right _ (ih hmem)

/-- Every query's section starts with its `### {title}` header line. -/
theorem querySection_header_contains (backend : String → PromOutcome) (item : QueryItem) :
    strContains (querySection backend item) ("### " ++ pyStr item.title ++ "\n") = true := by
  have hne : ("### " ++ pyStr item.title ++ "\n" : String) ≠ "" := by
    intro he
    have hdata : ("### " ++ pyStr item.title ++ "\n" : String).data = [] := by
      rw [he]
    rw [String.data_append, String.data_append] at hdata
    rcases List.append_eq_nil.mp hdata with ⟨h1, _⟩
    rcases List.append_eq_nil.mp h1 with ⟨h2, _⟩
    exact absurd h2 (by decide)
  exact strContains_self_append _ hne

/-! ## Chunking lemmas (claim C6) -/

theorem chunksAux_length : ∀ l : List Char, (chunksAux l).length = (l.length + 1989) / 1990 := by
  intro l
  induction l using chunksAux.induct with
  | case1 =>
    rw [chunksAux]
    rfl
  | case2 c rest ih =>
    rw [chunksAux]
    simp only [List.length_cons, ih, List.length_drop]
    omega

theorem chunksAux_chunk_le : ∀ l : List Char, ∀ m ∈ chunksAux l, m.length ≤ 1990 := by
  intro l
  induction l using chunksAux.induct with
  | case1 =>
    rw [chunksAux]
    intro m hm
    cases hm
  | case2 c rest ih =>
    rw [chunksAux]
    intro m hm
    rcases List.mem_cons.mp hm with rfl | hmem
    · rw [List.length_take]
      omega
    · exact ih m hmem

theorem chunksAux_flatten : ∀ l : List Char, (chunksAux l).flatten = l := by
  intro l
  induction l using chunksAux.induct with
  | case1 => rw [chunksAux]; rfl
  | case2 c rest ih =>
    rw [chunksAux]
    rw [List.flatten_cons, ih]
    exact List.take_append_drop 1990 (c :: rest)

theorem concatStrings_mk : ∀ ls : List (List Char),
    concatStrings (ls.map fun l => (⟨l⟩ : String)) = ⟨ls.flatten⟩ := by
  intro ls
  induction ls with
  | nil => rfl
  | cons l ls ih =>
    simp only [List.map_cons, concatStrings, ih, List.flatten_cons]
    rfl

/-! ## Non-empty query invariant helpers (claim C9) -/

theorem substTokens_ne_empty {q : String} (hq : q ≠ "") : substTokens q ≠ "" := by
  have hqd : q.data ≠ [] := by
    intro hd
    apply hq
    cases q with
    | mk l =>
      simp only at hd
      rw [hd]
  intro he
  have h1 : replaceAux ivlTok "5m".data (replaceAux rngTok "24h".data q.data) = [] := by
    have h0 : (substTokens q).data = [] := by rw [he]
    exact h0
  exact replaceAux_ne_nil (by decide) (replaceAux_ne_nil (by decide) hqd) h1

theorem targetContribution_query_ne_empty {title t : Json} {item : QueryItem}
    (hc : targetContribution title t = some item) : item.query ≠ "" := by
  cases t with
  | null => simp [targetContribution] at hc
  | bool b => simp [targetContribution] at hc
  | num n => simp [targetContribution] at hc
  | str s => simp [targetContribution] at hc
  | arr xs => simp [targetContribution] at hc
  | obj kvs =>
    simp only [targetContribution] at hc
    split at hc
    · cases hc
    · split at hc
      · split at hc
        · rename_i q heq hq
          cases hc
          have hqe : q ≠ "" := by simpa using hq
          exact substTokens_ne_empty hqe
        · cases hc
      · cases hc

theorem panelContribution_query_ne_empty {p : Json} {item : QueryItem}
    (h : item ∈ panelContribution p) : item.query ≠ "" := by
  cases p with
  | null => simp [panelContribution] at h
  | bool b => simp [panelContribution] at h
  | num n => simp [panelContribution] at h
  | str s => simp [panelContribution] at h
  | arr xs => simp [panelContribution] at h
  | obj kvs =>
    simp only [panelContribution] at h
    split at h
    · split at h
      · rcases List.mem_filterMap.mp h with ⟨t, _, hc⟩
        exact targetContribution_query_ne_empty hc
      · cases h
    · cases h

/-! ## Notifier helpers (claim C6) -/

theorem postedContents_map_post : ∀ ls : List String,
    postedContents (ls.map .postCall) = ls := by
  intro ls
  induction ls with
  | nil => rfl
  | cons s rest ih =>
    simp only [List.map_cons, postedContents, List.filterMap_cons] at ih ⊢
    rw [ih]

/-! ## Concrete fixtures for counterexamples and witnesses -/

/-- A fully-populated Grafana configuration. -/
def cfgEx : GrafanaConfig :=
  ⟨some "http://grafana.monitoring.svc", some "api-key", some "grafana.example.com"⟩

/-- The spec's example panel: titled `CPU`, one target with expression
`sum(rate($__range))` and `hide: false`, and no `datasource` field. -/
def panelNoDatasource : Json :=
  .obj [("title", .str "CPU"),
        ("targets", .arr [.obj [("expr", .str "sum(rate($__range))"), ("hide", .bool false)]])]

/-- The same panel with an explicit `datasource: null`. -/
def panelNullDatasource : Json :=
  .obj [("title", .str "CPU"),
        ("datasource", .null),
        ("targets", .arr [.obj [("expr", .str "sum(rate($__range))"), ("hide", .bool false)]])]

/-- A dashboard body holding a single panel. -/
def dashBody (p : Json) : Json := .obj [("dashboard", .obj [("panels", .arr [p])])]

/-- A dashboard mixing qualifying and non-qualifying panels and targets. -/
def dashMixed : Json :=
  .obj [("dashboard", .obj [("panels", .arr
    [panelNullDatasource,
     .obj [("title", .str "Mem"), ("datasource", .obj [("type", .str "prometheus")]),
           ("targets", .arr
             [.obj [("expr", .str "node_memory"), ("hide", .bool true)],
              .obj [("expr", .str "mem_used / $__interval")]])],
     panelNoDatasource])])]

/-- Three qualifying one-target panels, for exercising the collector. -/
def dashThree : Json :=
  .obj [("dashboard", .obj [("panels", .arr
    [.obj [("title", .str "A"), ("datasource", .null),
           ("targets", .arr [.obj [("expr", .str "up")]])],
     .obj [("title", .str "B"), ("datasource", .null),
           ("targets", .arr [.obj [("expr", .str "down")]])],
     .obj [("title", .str "C"), ("datasource", .null),
           ("targets", .arr [.obj [("expr", .str "err")]])]])])]

/-- A Prometheus stub: empty result for `up`, client exception for `down`,
some other exception for anything else. -/
def backendEx : String → PromOutcome := fun q =>
  if q == "up" then .ok []
  else if q == "down" then .apiError
  else .otherError

/-- The extraction of `dashThree`. -/
def qsThree : List QueryItem :=
  [⟨.str "A", "up"⟩, ⟨.str "B", "down"⟩, ⟨.str "C", "err"⟩]

/-- A series with one label and the value pair `[0, "5"]`. -/
def goodSeries : Json :=
  .obj [("metric", .obj [("pod", .str "web")]), ("value", .arr [.num 0, .str "5"])]

/-- A series whose value is `null`, so `float(metric['value'][1])` raises. -/
def badSeries : Json := .obj [("metric", .obj []), ("value", .null)]

/-- A Prometheus stub returning a coercible series followed by a
non-coercible one. -/
def backendPartial : String → PromOutcome := fun _ => .ok [goodSeries, badSeries]

/-- A narrative longer than one Discord chunk. -/
def bigReport : String := ⟨List.replicate 1991 'x'⟩

/-- A generative-service stub that succeeds. -/
def svcOk : String → Except String String := fun _ => .ok "보고서"

/-- A generative-service stub that raises. -/
def svcErr : String → Except String String := fun _ => .error "boom"

/-! ## Claim theorems -/

/-- C1 counterexample: the claim says a panel with an absent `datasource`
field qualifies, and that the spec's example dashboard (panel `CPU`, one
target `sum(rate($__range))`, `hide: false`, no datasource field) extracts
to exactly one item.  On the code, `panel.get('datasource', {})` defaults
to `{}`, which is neither prometheus-typed nor `None`, so the panel is
skipped: extraction of that exact dashboard yields `[]`, not the claimed
singleton. -/
theorem C1_counterexample :
    (get_all_queries_from_grafana cfgEx (some "dash-uid")
        (.response 200 (some (dashBody panelNoDatasource)))).result = .ok [] ∧
    (Except.ok ([] : List QueryItem) : Except PyError (List QueryItem))
      ≠ .ok [⟨.str "CPU", "sum(rate(24h))"⟩] := by
  constructor
  · rfl
  · intro hcontra
    simp at hcontra

/-- C1 amended: a panel whose `datasource` is explicitly `null` (or typed
`prometheus`) qualifies, but a panel with an absent `datasource` field
does not (the `{}` default fails both tests); with `datasource: null`
added, the spec's example dashboard extracts to exactly
`[{title: "CPU", query: "sum(rate(24h))"}]`. -/
theorem C1_amended_theorem :
    isPromDatasource .null = true ∧
    isPromDatasource (.obj []) = false ∧
    (get_all_queries_from_grafana cfgEx (some "dash-uid")
        (.response 200 (some (dashBody panelNullDatasource)))).result
      = .ok [⟨.str "CPU", "sum(rate(24h))"⟩] :=
  ⟨rfl, rfl, rfl⟩

/-- C2 counterexample: the claim says the extractor never raises to its
caller for any input.  A 200 response whose body parses to the JSON value
`5` reaches `dashboard_data.get('dashboard', {})` on an `int`, raising
`AttributeError`, which neither `except` clause catches: the call raises
instead of returning a sequence. -/
theorem C2_counterexample :
    (get_all_queries_from_grafana cfgEx (some "dash-uid")
        (.response 200 (some (.num 5)))).result = .error .attributeError ∧
    ∀ out : List QueryItem,
      (get_all_queries_from_grafana cfgEx (some "dash-uid")
          (.response 200 (some (.num 5)))).result ≠ .ok out := by
  constructor
  · rfl
  · intro out hcontra
    rw [show (get_all_queries_from_grafana cfgEx (some "dash-uid")
        (.response 200 (some (.num 5)))).result = .error .attributeError from rfl] at hcontra
    exact Except.noConfusion hcontra

/-- C2 amended: on each of the four listed failure classes — missing
configuration, network error, non-success HTTP status, unparsable body —
the extractor returns the empty sequence without raising; only a
successfully parsed body of unexpected shape can raise. -/
theorem C2_amended_theorem (cfg : GrafanaConfig) (uid : Option String) :
    (∀ http, grafanaConfigTruthy cfg uid = false →
      get_all_queries_from_grafana cfg uid http = ⟨.ok [], false⟩) ∧
    ((get_all_queries_from_grafana cfg uid .networkError).result = .ok []) ∧
    (∀ status body, status ≠ 200 →
      (get_all_queries_from_grafana cfg uid (.response status body)).result = .ok []) ∧
    (∀ status, (get_all_queries_from_grafana cfg uid (.response status none)).result = .ok []) := by
  refine ⟨?_, ?_, ?_, ?_⟩
  · intro http hcfg
    unfold get_all_queries_from_grafana
    rw [hcfg]
    rfl
  · unfold get_all_queries_from_grafana
    split
    · rfl
    · rfl
  · intro status body hstatus
    have hb : (status != 200) = true := by simpa using hstatus
    unfold get_all_queries_from_grafana
    split
    · rfl
    · simp [hb]
  · intro status
    unfold get_all_queries_from_grafana
    split
    · rfl
    · cases hb : (status != 200) <;> simp [hb]

/-- C2 witness: the three HTTP-level failure classes at a concrete
configuration each return the empty sequence. -/
theorem C2_witness :
    (get_all_queries_from_grafana cfgEx (some "dash-uid") .networkError).result = .ok [] ∧
    (get_all_queries_from_grafana cfgEx (some "dash-uid")
        (.response 500 (some (.num 1)))).result = .ok [] ∧
    (get_all_queries_from_grafana cfgEx (some "dash-uid")
        (.response 200 none)).result = .ok [] :=
  ⟨(C2_amended_theorem cfgEx (some "dash-uid")).2.1,
   (C2_amended_theorem cfgEx (some "dash-uid")).2.2.1 500 (some (.num 1)) (by decide),
   (C2_amended_theorem cfgEx (some "dash-uid")).2.2.2 200⟩

/-- C3: whenever the extractor returns a list for a fetched dashboard
body, that list is exactly the concatenation, in panel/target encounter
order, of the per-panel contributions: each non-hidden target with a
non-empty expression of each qualifying panel with a `targets` field
contributes exactly one query item, and every other target contributes
nothing. -/
theorem C3_extraction_order (cfg : GrafanaConfig) (uid : Option String) (j : Json)
    (out : List QueryItem)
    (hcfg : grafanaConfigTruthy cfg uid = true)
    (h : (get_all_queries_from_grafana cfg uid (.response 200 (some j))).result = .ok out) :
    out = (bodyPanels j).flatMap panelContribution := by
  have hex : extractFromBody j = .ok out := by
    unfold get_all_queries_from_grafana at h
    rw [hcfg] at h
    simpa using h
  exact extractFromBody_ok hex

/-- C3 witness: a dashboard with a qualifying null-datasource panel, a
prometheus-typed panel holding a hidden target and a live target, and a
non-qualifying panel extracts to exactly the two live items in encounter
order, matching the declarative characterization. -/
theorem C3_witness :
    (get_all_queries_from_grafana cfgEx (some "dash-uid")
        (.response 200 (some dashMixed))).result
      = .ok [⟨.str "CPU", "sum(rate(24h))"⟩, ⟨.str "Mem", "mem_used / 5m"⟩] ∧
    ([⟨.str "CPU", "sum(rate(24h))"⟩, ⟨.str "Mem", "mem_used / 5m"⟩] : List QueryItem)
      = (bodyPanels dashMixed).flatMap panelContribution :=
  ⟨rfl, C3_extraction_order cfgEx (some "dash-uid") dashMixed
    [⟨.str "CPU", "sum(rate(24h))"⟩, ⟨.str "Mem", "mem_used / 5m"⟩] rfl rfl⟩

/-- C4: for a query containing both templating tokens, the substituted
query equals the simultaneous replacement of every `$__range` by `24h` and
every `$__interval` by `5m`, and no occurrence of either token remains. -/
theorem C4_template_substitution (q : String)
    (hq1 : strContains q "$__range" = true) (hq2 : strContains q "$__interval" = true) :
    substTokens q = simulSubst q ∧
    strContains (substTokens q) "$__range" = false ∧
    strContains (substTokens q) "$__interval" = false := by
  refine ⟨?_, ?_, ?_⟩
  · exact congrArg String.mk (subst_eq_simul q.data)
  · have hX : occursB rngTok (replaceAux rngTok "24h".data q.data) = false :=
      occursB_replaceAux_self rngTok_ne_nil (by decide) disj_rng_24h q.data
    cases hres : occursB rngTok
        (replaceAux ivlTok "5m".data (replaceAux rngTok "24h".data q.data)) with
    | false => exact hres
    | true =>
      have h3 := occursB_replaceAux (by decide) (replaceAux rngTok "24h".data q.data)
        rngTok rngTok_ne_nil disj_rng_5m hres
      rw [hX] at h3
      exact absurd h3 (by simp)
  · exact occursB_replaceAux_self ivlTok_ne_nil (by decide) disj_ivl_5m
      (replaceAux rngTok "24h".data q.data)

/-- C4 witness: a concrete query containing both tokens. -/
theorem C4_witness :
    substTokens "sum(rate($__range[$__interval]))"
        = simulSubst "sum(rate($__range[$__interval]))" ∧
    strContains (substTokens "sum(rate($__range[$__interval]))") "$__range" = false ∧
    strContains (substTokens "sum(rate($__range[$__interval]))") "$__interval" = false :=
  C4_template_substitution "sum(rate($__range[$__interval]))" (by decide) (by decide)

/-- C5: for a non-empty extraction, the collector returns the header
followed by one section per query in order; a query whose backend call
returns zero series gets the fixed no-data marker, one raising the
Prometheus client exception gets the fixed query-failed marker, one
raising anything else gets the fixed unknown-error marker; and every
extracted query's `### title` section header occurs in the report, so a
failing query never aborts the remaining ones. -/
theorem C5_collector_markers (cfg : GrafanaConfig) (uid : Option String) (http : HttpOutcome)
    (backend : String → PromOutcome) (qs : List QueryItem)
    (h : (get_all_queries_from_grafana cfg uid http).result = .ok qs) (hne : qs ≠ []) :
    get_metrics cfg uid http backend
        = .ok (some (reportHeader uid ++ metricsLoop backend qs)) ∧
    ∀ item ∈ qs,
      (backend item.query = .ok [] →
        strContains (querySection backend item) "- (데이터 없음)\n" = true) ∧
      (backend item.query = .apiError →
        strContains (querySection backend item) "  - (쿼리 실행 중 에러 발생)\n" = true) ∧
      (backend item.query = .otherError →
        strContains (querySection backend item) "  - (알 수 없는 에러 발생)\n" = true) ∧
      strContains (reportHeader uid ++ metricsLoop backend qs)
        ("### " ++ pyStr item.title ++ "\n") = true := by
  constructor
  · unfold get_metrics
    rw [h]
    cases qs with
    | nil => exact absurd rfl hne
    | cons q rest => rfl
  · intro item hmem
    refine ⟨?_, ?_, ?_, ?_⟩
    · intro hb
      unfold querySection
      rw [hb]
      exact strContains_append_of_right _ (by decide)
    · intro hb
      unfold querySection
      rw [hb]
      exact strContains_append_of_right _ (by decide)
    · intro hb
      unfold querySection
      rw [hb]
      exact strContains_append_of_right _ (by decide)
    · exact strContains_append_of_right _
        (strContains_metricsLoop hmem (querySection_header_contains backend item))

/-- C5 witness: three extracted queries hitting the three failure shapes. -/
theorem C5_witness :
    get_metrics cfgEx (some "dash-uid") (.response 200 (some dashThree)) backendEx
        = .ok (some (reportHeader (some "dash-uid") ++ metricsLoop backendEx qsThree)) ∧
    ∀ item ∈ qsThree,
      (backendEx item.query = .ok [] →
        strContains (querySection backendEx item) "- (데이터 없음)\n" = true) ∧
      (backendEx item.query = .apiError →
        strContains (querySection backendEx item) "  - (쿼리 실행 중 에러 발생)\n" = true) ∧
      (backendEx item.query = .otherError →
        strContains (querySection backendEx item) "  - (알 수 없는 에러 발생)\n" = true) ∧
      strContains (reportHeader (some "dash-uid") ++ metricsLoop backendEx qsThree)
        ("### " ++ pyStr item.title ++ "\n") = true :=
  C5_collector_markers cfgEx (some "dash-uid") (.response 200 (some dashThree)) backendEx
    qsThree rfl (by simp [qsThree])

/-- C6: with a webhook configured and a narrative longer than 1990
characters, the notifier issues exactly `ceil(len / 1990)` POSTs (the
natural-number ceiling `(len + 1989) / 1990`), every posted chunk has at
most 1990 characters, and the posted chunks concatenated in order equal
the narrative exactly. -/
theorem C6_notifier_chunking (webhook report_content : String)
    (hw : webhook ≠ "") (hlen : 1990 < report_content.length) :
    (postedContents (send_to_discord (some webhook) report_content)).length
        = (report_content.length + 1989) / 1990 ∧
    (∀ c ∈ postedContents (send_to_discord (some webhook) report_content),
      c.length ≤ 1990) ∧
    concatStrings (postedContents (send_to_discord (some webhook) report_content))
        = report_content := by
  have hw' : optTruthy (some webhook) = true := by simp [optTruthy, hw]
  have hposted : postedContents (send_to_discord (some webhook) report_content)
      = discordChunks report_content := by
    unfold send_to_discord
    rw [hw']
    simp only [Bool.not_true, Bool.false_eq_true, if_false]
    exact postedContents_map_post _
  refine ⟨?_, ?_, ?_⟩
  · rw [hposted]
    unfold discordChunks
    rw [List.length_map, chunksAux_length]
    rfl
  · intro c hc
    rw [hposted] at hc
    unfold discordChunks at hc
    rcases List.mem_map.mp hc with ⟨l, hl, rfl⟩
    exact chunksAux_chunk_le report_content.data l hl
  · rw [hposted]
    unfold discordChunks
    rw [concatStrings_mk, chunksAux_flatten]

/-- C6 witness: a 1991-character narrative. -/
theorem C6_witness :
    (postedContents (send_to_discord (some "https://discord.example/hook") bigReport)).length
        = (bigReport.length + 1989) / 1990 ∧
    (∀ c ∈ postedContents (send_to_discord (some "https://discord.example/hook") bigReport),
      c.length ≤ 1990) ∧
    concatStrings (postedContents (send_to_discord (some "https://discord.example/hook") bigReport))
        = bigReport :=
  C6_notifier_chunking "https://discord.example/hook" bigReport (by decide) (by
    show 1990 < (List.replicate 1991 'x').length
    rw [List.length_replicate]
    omega)

/-- C7: the narrative generator returns the fixed Korean no-key notice
without contacting the service when the credential is falsy; returns the
fixed no-data notice when the credential is present but the input text is
falsy; and converts a failing service call into the descriptive error
string — by construction it always returns a string, never raising. -/
theorem C7_gemini_guards (gemini_api_key metrics_text : Option String)
    (svc : String → Except String String) :
    (optTruthy gemini_api_key = false →
      generate_report_with_gemini gemini_api_key metrics_text svc = ⟨geminiNoKeyMsg, false⟩) ∧
    (optTruthy gemini_api_key = true → optTruthy metrics_text = false →
      generate_report_with_gemini gemini_api_key metrics_text svc = ⟨geminiNoDataMsg, false⟩) ∧
    (∀ e, optTruthy gemini_api_key = true → optTruthy metrics_text = true →
      svc (geminiPrompt (metrics_text.getD "")) = .error e →
      generate_report_with_gemini gemini_api_key metrics_text svc
        = ⟨"Gemini API 호출 중 에러가 발생했습니다: " ++ e, true⟩) := by
  refine ⟨?_, ?_, ?_⟩
  · intro hk
    unfold generate_report_with_gemini
    rw [hk]
    rfl
  · intro hk hm
    unfold generate_report_with_gemini
    rw [hk, hm]
    rfl
  · intro e hk hm hsvc
    unfold generate_report_with_gemini
    rw [hk, hm, hsvc]
    rfl

/-- C7 witness: the three guard branches at concrete inputs. -/
theorem C7_witness :
    generate_report_with_gemini none (some "data") svcOk = ⟨geminiNoKeyMsg, false⟩ ∧
    generate_report_with_gemini (some "key") none svcOk = ⟨geminiNoDataMsg, false⟩ ∧
    generate_report_with_gemini (some "key") (some "data") svcErr
        = ⟨"Gemini API 호출 중 에러가 발생했습니다: " ++ "boom", true⟩ :=
  ⟨(C7_gemini_guards none (some "data") svcOk).1 rfl,
   (C7_gemini_guards (some "key") none svcOk).2.1 (by decide) rfl,
   (C7_gemini_guards (some "key") (some "data") svcErr).2.2 "boom" (by decide) (by decide) rfl⟩

/-- C8: with any of the four dashboard configuration values empty or
unset, the extractor returns the empty sequence and the HTTP request is
never issued. -/
theorem C8_config_short_circuit (cfg : GrafanaConfig) (uid : Option String) (http : HttpOutcome)
    (h : optTruthy cfg.grafana_url = false ∨ optTruthy cfg.grafana_api_key = false ∨
      optTruthy cfg.grafana_public_domain = false ∨ optTruthy uid = false) :
    (get_all_queries_from_grafana cfg uid http).result = .ok [] ∧
    (get_all_queries_from_grafana cfg uid http).httpRequested = false := by
  have hc : grafanaConfigTruthy cfg uid = false := by
    unfold grafanaConfigTruthy
    rcases h with h | h | h | h <;> simp [h]
  have hrun : get_all_queries_from_grafana cfg uid http = ⟨.ok [], false⟩ := by
    unfold get_all_queries_from_grafana
    rw [hc]
    rfl
  rw [hrun]
  exact ⟨rfl, rfl⟩

/-- C8 witness: an empty API key with everything else present, a valid
dashboard available behind the (never-issued) request. -/
theorem C8_witness :
    (get_all_queries_from_grafana
        ⟨some "http://grafana.monitoring.svc", some "", some "grafana.example.com"⟩
        (some "dash-uid") (.response 200 (some (dashBody panelNullDatasource)))).result
      = .ok [] ∧
    (get_all_queries_from_grafana
        ⟨some "http://grafana.monitoring.svc", some "", some "grafana.example.com"⟩
        (some "dash-uid") (.response 200 (some (dashBody panelNullDatasource)))).httpRequested
      = false :=
  C8_config_short_circuit
    ⟨some "http://grafana.monitoring.svc", some "", some "grafana.example.com"⟩
    (some "dash-uid") (.response 200 (some (dashBody panelNullDatasource)))
    (.inr (.inl (by decide)))

/-- C9: every query item in any list the extractor returns has a
non-empty query string — an absent or empty `expr` never produces an
item. -/
theorem C9_nonempty_queries (cfg : GrafanaConfig) (uid : Option String) (http : HttpOutcome)
    (out : List QueryItem)
    (h : (get_all_queries_from_grafana cfg uid http).result = .ok out) :
    ∀ item ∈ out, item.query ≠ "" := by
  intro item hmem
  rcases extraction_run_cases h with rfl | ⟨j, _, hex⟩
  · cases hmem
  · have hchar := extractFromBody_ok hex
    subst hchar
    rcases List.mem_flatMap.mp hmem with ⟨p, _, hitem⟩
    exact panelContribution_query_ne_empty hitem

/-- C9 witness: the item extracted from the null-datasource example
dashboard has a non-empty query. -/
theorem C9_witness :
    (⟨Json.str "CPU", "sum(rate(24h))"⟩ : QueryItem).query ≠ "" :=
  C9_nonempty_queries cfgEx (some "dash-uid")
    (.response 200 (some (dashBody panelNullDatasource)))
    [⟨.str "CPU", "sum(rate(24h))"⟩] rfl
    ⟨.str "CPU", "sum(rate(24h))"⟩ (by simp)

/-- C10: per-query error handling is not atomic — for a backend result
whose first series formats successfully and whose second series' value
cannot be coerced to a float, the query's section contains the already
formatted sample line followed by the fixed unknown-error marker; the
earlier line is retained, not rolled back. -/
theorem C10_partial_section_retained :
    formatSeries goodSeries = .ok "- `pod=\"web\"`: **5.00**\n" ∧
    formatSeries badSeries = .error .typeError ∧
    querySection backendPartial ⟨.str "CPU", "q"⟩
      = "### CPU\n- `pod=\"web\"`: **5.00**\n  - (알 수 없는 에러 발생)\n\n" :=
  ⟨rfl, rfl, rfl⟩

end MetricCurator
